import Mathlib

/-!
Verification development for the `create-node-express-es6-app` scaffolding CLI
(`src/bin/cli.js`).  The filesystem is modelled by explicit directory listings
(lists of named entries tagged file/directory), paths by lists of components,
and the external package manager and the external name validator by explicit
result parameters.  Each source function of the CLI is embedded as a Lean
definition of the same name.
-/

set_option autoImplicit false

namespace Cli

/-- Model of the JavaScript `String.prototype.startsWith`: the pattern is a
prefix of the string (compared code point by code point). -/
def jsStartsWith (s pattern : String) : Bool :=
  pattern.data.isPrefixOf s.data

/-- Model of the JavaScript regular-expression test `/\.iml$/.test(file)` used
by the scanner: the string ends with the four characters `.iml`. -/
def jsEndsWith (s pattern : String) : Bool :=
  pattern.data.isSuffixOf s.data

/-- Lexicographic comparison of strings by code point, the default ordering of
the JavaScript `Array.prototype.sort`. -/
def strLtChars : List Char → List Char → Bool
  | [], [] => false
  | [], _ :: _ => true
  | _ :: _, [] => false
  | a :: as, b :: bs => if a < b then true else if b < a then false else strLtChars as bs

/-- `a` sorts no later than `b` under the default JavaScript sort order. -/
def jsLe (a b : String) : Bool :=
  !(strLtChars b.data a.data)

/-- Insert into a sorted list, keeping earlier elements first on ties. -/
def sortedInsert {α : Type} (le : α → α → Bool) (a : α) : List α → List α
  | [] => [a]
  | b :: bs => if le a b then a :: b :: bs else b :: sortedInsert le a bs

/-- Model of `Array.prototype.sort` (insertion sort; the source only sorts a
two-element dependency list, for which any comparison sort agrees). -/
def jsSort {α : Type} (le : α → α → Bool) : List α → List α
  | [] => []
  | a :: as => sortedInsert le a (jsSort le as)

/-- A directory entry as seen by `fs.readdirSync` plus the `fs.lstatSync`
file/directory tag the scanner uses when reporting conflicts. -/
structure Entry where
  name : String
  isDir : Bool
deriving DecidableEq, Repr

/-- The `validFiles` allow-list of `isSafeToCreateProjectIn`. -/
def validFiles : List String :=
  [".DS_Store", ".git", ".gitattributes", ".gitignore", ".gitlab-ci.yml",
   ".hg", ".hgcheck", ".hgignore", ".idea", ".npmignore", ".travis.yml",
   "docs", "LICENSE", "README.md", "mkdocs.yml", "Thumbs.db"]

/-- The `errorLogFilePatterns` list of `isSafeToCreateProjectIn`: filename
prefixes of stale logs from a previous failed installation. -/
def errorLogFilePatterns : List String :=
  ["npm-debug.log", "yarn-error.log", "yarn-debug.log"]

/-- The `isErrorLog` predicate of `isSafeToCreateProjectIn`: some stale-log
pattern is a prefix of the filename. -/
def isErrorLog (file : String) : Bool :=
  errorLogFilePatterns.any (fun pattern => jsStartsWith file pattern)

/-- The `conflicts` computation of `isSafeToCreateProjectIn`: directory
entries that are not on the allow-list, do not end in `.iml`, and are not
stale logs, in directory order. -/
def conflictsOf (entries : List Entry) : List Entry :=
  ((entries.filter (fun e => !(validFiles.contains e.name))).filter
      (fun e => !(jsEndsWith e.name ".iml"))).filter
    (fun e => !(isErrorLog e.name))

/-- Result of one run of the scanner over a directory listing: the boolean
return value, the reported conflicts (tagged file/directory, in order), the
entries the scan deleted, and the directory contents after the scan. -/
structure ScanResult where
  safe : Bool
  conflicts : List Entry
  deleted : List Entry
  entriesAfter : List Entry
deriving DecidableEq, Repr

/-- Embedding of `isSafeToCreateProjectIn(root, name)`: if any conflict
exists the function reports the conflicts and returns false without touching
the directory; otherwise it deletes every stale-log entry and returns true. -/
def isSafeToCreateProjectIn (entries : List Entry) : ScanResult :=
  let conflicts := conflictsOf entries
  if conflicts.isEmpty then
    { safe := true
      conflicts := []
      deleted := entries.filter (fun e => isErrorLog e.name)
      entriesAfter := entries.filter (fun e => !(isErrorLog e.name)) }
  else
    { safe := false
      conflicts := conflicts
      deleted := []
      entriesAfter := entries }

theorem mem_conflictsOf {entries : List Entry} {e : Entry} :
    e ∈ conflictsOf entries ↔
      e ∈ entries ∧ e.name ∉ validFiles ∧
        jsEndsWith e.name ".iml" = false ∧ isErrorLog e.name = false := by
  simp [conflictsOf, List.mem_filter, and_assoc]
  tauto

theorem safe_iff_conflictsOf_nil (entries : List Entry) :
    (isSafeToCreateProjectIn entries).safe = true ↔ conflictsOf entries = [] := by
  unfold isSafeToCreateProjectIn
  rcases h : conflictsOf entries with _ | ⟨a, l⟩ <;> simp [h]

/-- The generated `package.json` manifest: name, the literal version `0.1.0`,
and the `private` flag (called `isPrivate` here because `private` is a Lean
keyword). -/
structure Manifest where
  name : String
  version : String
  isPrivate : Bool
deriving DecidableEq, Repr

/-- What `cross-spawn` is asked to start: command, argument vector, and the
stdio disposition. -/
structure SpawnSpec where
  command : String
  args : List String
  stdio : String
deriving DecidableEq, Repr

/-- A promise rejection reason as `run` distinguishes them: a rejection value
carrying a `command` field (produced by `install`), or the `TypeError` that
`Promise.all` produces when its argument is not iterable, which carries no
`command` field. -/
inductive Reason where
  | typeError
  | commandFailed (command : String)
deriving DecidableEq, Repr

/-- Settled state of a JavaScript promise. -/
inductive PromiseResult (α : Type) where
  | resolved (value : α)
  | rejected (reason : Reason)
deriving DecidableEq, Repr

/-- The argument vector `install` builds: fixed flags followed by the
dependency names in order. -/
def installArgs (dependencies : List String) : List String :=
  ["install", "--no-audit", "--save", "--save-exact", "--loglevel", "error"]
    ++ dependencies

/-- The child process `install` spawns: `npm` with `installArgs`, inheriting
the standard streams of the invoking process. -/
def installSpawn (dependencies : List String) : SpawnSpec :=
  { command := "npm", args := installArgs dependencies, stdio := "inherit" }

/-- Embedding of `install(dependencies)` as a function of the exit code of the
spawned child: nonzero exit rejects with the reconstructed command line
(command name, a space, the arguments joined by spaces); exit 0 resolves. -/
def install (dependencies : List String) (exitCode : Nat) : PromiseResult Unit :=
  if exitCode ≠ 0 then
    .rejected (.commandFailed ("npm " ++ String.intercalate " " (installArgs dependencies)))
  else
    .resolved ()

/-- The `knownGeneratedFiles` list of the rollback in `run`. -/
def knownGeneratedFiles : List String :=
  ["package.json", "node_modules"]

/-- Effect of the rollback in the catch handler of `run`: entries deleted,
directory contents afterwards, whether the target directory itself was
deleted, the working directory afterwards, and the exit status. -/
structure RollbackResult where
  deleted : List Entry
  entriesAfter : List Entry
  dirDeleted : Bool
  cwdAfter : List String
  exitCode : Nat
deriving DecidableEq, Repr

/-- Embedding of the catch handler of `run` (the rollback).  `root` is the
target directory (also the working directory on entry, since `createApp` has
already changed into it) and `entries` its current listing.  Every entry whose
name is in `knownGeneratedFiles` is deleted; if nothing remains, the process
changes into the parent of `root` and deletes `root` itself.  The handler ends
with `process.exit(1)`. -/
def rollbackOnFailure (root : List String) (entries : List Entry) : RollbackResult :=
  let deleted := entries.filter (fun e => knownGeneratedFiles.contains e.name)
  let remaining := entries.filter (fun e => !(knownGeneratedFiles.contains e.name))
  if remaining.isEmpty then
    { deleted := deleted
      entriesAfter := remaining
      dirDeleted := true
      cwdAfter := root.dropLast
      exitCode := 1 }
  else
    { deleted := deleted
      entriesAfter := remaining
      dirDeleted := false
      cwdAfter := root
      exitCode := 1 }

/-- Semantics of `Promise.all` applied to a function value, which is what the
source passes (`Promise.all(() => ...)`): a function is not iterable, so the
returned promise rejects with a `TypeError` and the function body is never
invoked. -/
def promiseAllOfFunction (_f : Unit → PromiseResult Unit) : PromiseResult Unit :=
  .rejected .typeError

/-- The `allDependencies` list built inside the callback of `run`. -/
def allDependencies : List String :=
  ["express", "node-fetch"]

/-- Outcome of `run`: the rejection reason its catch handler saw (if any), the
rollback it performed (if any), and the exit status it requested (if any). -/
structure RunResult where
  reason : Option Reason
  rolledBack : Option RollbackResult
  exited : Option Nat
deriving DecidableEq, Repr

/-- Embedding of `run(root, appName)`.  The source wraps the install callback
in `Promise.all`, so the result of `promiseAllOfFunction` on that callback
drives the branch: a resolution would end `run` with no further action, and a
rejection runs the catch handler (rollback, then exit 1).  `installExitCode`
is the exit code the package manager would return if it were spawned. -/
def run (root : List String) (entries : List Entry) (installExitCode : Nat) : RunResult :=
  match promiseAllOfFunction (fun _ => install allDependencies installExitCode) with
  | .resolved _ => { reason := none, rolledBack := none, exited := none }
  | .rejected r =>
    { reason := some r
      rolledBack := some (rollbackOnFailure root entries)
      exited := some 1 }

/-- Result of the external `validate-npm-package-name` check, as `checkAppName`
reads it: either valid for new packages, or invalid with the `errors` and
`warnings` message lists. -/
inductive ValidationResult where
  | ok
  | invalid (errors warnings : List String)
deriving DecidableEq, Repr

/-- The `dependencies` list of `checkAppName`: the runtime dependencies,
sorted. -/
def dependencies : List String :=
  jsSort jsLe ["express", "node-fetch"]

/-- Outcome of `checkAppName`: pass, or one of its two fatal branches — the
naming-policy branch reports each violation message and exits 1, and the
reserved-name branch reports one message listing the forbidden dependency
names and exits 1. -/
inductive CheckNameOutcome where
  | ok
  | rejectedInvalidName (violations : List String)
  | rejectedReservedName (forbidden : List String)
deriving DecidableEq, Repr

/-- Embedding of `checkAppName(appName)`.  The validation result of the
external checker is a parameter.  On an invalid name the reported violations
are the `errors` followed by the `warnings`; otherwise a name equal to a
sorted dependency name is rejected with the full forbidden list. -/
def checkAppName (appName : String) (validation : ValidationResult) : CheckNameOutcome :=
  match validation with
  | .invalid errors warnings => .rejectedInvalidName (errors ++ warnings)
  | .ok =>
    if dependencies.contains appName then
      .rejectedReservedName dependencies
    else
      .ok

/-- The project-directory CLI argument, as a list of path components, either
absolute or relative to the working directory (components are taken as
already normalized; the source resolves the argument with `path.resolve`). -/
inductive PathArg where
  | abs (components : List String)
  | rel (components : List String)
deriving DecidableEq, Repr

/-- Model of `path.resolve(name)` against the current working directory. -/
def resolvePath (cwd : List String) : PathArg → List String
  | .abs components => components
  | .rel components => cwd ++ components

/-- Model of `path.basename`: the last path component. -/
def basenameOf (p : List String) : String :=
  (p.getLast?).getD ""

/-- Observable events of one `createApp` invocation, in program order. -/
inductive Event where
  | violationReported (message : String)
  | reservedNameReported (forbidden : List String)
  | dirEnsured
  | conflictsReported (conflicts : List Entry)
  | manifestWritten (manifest : Manifest)
  | chdir (path : List String)
  | cwdErrorReported
  | crashedUndefinedVersion
  | exited (code : Nat)
deriving DecidableEq, Repr

/-- Environment of one `createApp` invocation: the CLI argument, the original
working directory, the external validation result for the app name, the
listing of the target directory when it already exists (`none` when
`fs.ensureDirSync` has to create it, giving an empty listing), and the
result of `checkThatNpmCanReadCwd`. -/
structure Inputs where
  name : PathArg
  cwd : List String
  validation : ValidationResult
  existingEntries : Option (List Entry)
  npmCwdOk : Bool
deriving DecidableEq, Repr

/-- Embedding of `createApp(name)` as the list of events it produces, in
program order.  `checkAppName` runs first and its fatal branches exit before
`fs.ensureDirSync`, so a rejected name creates no directory.  After the
directory is ensured, `isSafeToCreateProjectIn` decides between the conflict
report plus exit 1 and the write path: manifest written, working directory
changed into the target, then the npm cwd check.  The final statement of the
source, `run(root, appName, version, originalDirectory)`, reads the
undeclared identifier `version`; in strict mode evaluating that argument list
throws a `ReferenceError` before `run` is entered, and the resulting promise
rejection is never handled, terminating the process — modelled as
`Event.crashedUndefinedVersion`. -/
def createApp (inp : Inputs) : List Event :=
  let root := resolvePath inp.cwd inp.name
  let appName := basenameOf root
  match checkAppName appName inp.validation with
  | .rejectedInvalidName violations =>
    (violations.map Event.violationReported) ++ [Event.exited 1]
  | .rejectedReservedName forbidden =>
    [Event.reservedNameReported forbidden, Event.exited 1]
  | .ok =>
    let entries := inp.existingEntries.getD []
    let scanResult := isSafeToCreateProjectIn entries
    if scanResult.safe then
      Event.dirEnsured ::
      Event.manifestWritten { name := appName, version := "0.1.0", isPrivate := true } ::
      Event.chdir root ::
      (if inp.npmCwdOk then [Event.crashedUndefinedVersion]
       else [Event.cwdErrorReported, Event.exited 1])
    else
      [Event.dirEnsured, Event.conflictsReported scanResult.conflicts, Event.exited 1]

theorem scan_eq_of_no_conflicts {entries : List Entry} (hc : conflictsOf entries = []) :
    isSafeToCreateProjectIn entries =
      { safe := true
        conflicts := []
        deleted := entries.filter (fun e => isErrorLog e.name)
        entriesAfter := entries.filter (fun e => !(isErrorLog e.name)) } := by
  simp [isSafeToCreateProjectIn, hc]

theorem scan_eq_of_conflicts {entries : List Entry} (hc : conflictsOf entries ≠ []) :
    isSafeToCreateProjectIn entries =
      { safe := false
        conflicts := conflictsOf entries
        deleted := []
        entriesAfter := entries } := by
  unfold isSafeToCreateProjectIn
  rcases h : conflictsOf entries with _ | ⟨a, l⟩
  · exact absurd h hc
  · simp [h]

theorem scan_conflicts_eq (entries : List Entry) :
    (isSafeToCreateProjectIn entries).conflicts = conflictsOf entries := by
  by_cases h : conflictsOf entries = []
  · rw [scan_eq_of_no_conflicts h, h]
  · rw [scan_eq_of_conflicts h]

/-- C3: a target directory whose entries are all on the fixed allow-list
scans with zero conflicts; concretely, a directory holding only `.git` and
`README.md` is safe, and a directory holding `notes.txt` is unsafe with
`notes.txt` reported as a file conflict. -/
theorem C3_allowlisted_entries_scan_clean :
    (∀ entries : List Entry, (∀ e ∈ entries, e.name ∈ validFiles) →
      (isSafeToCreateProjectIn entries).safe = true ∧
        (isSafeToCreateProjectIn entries).conflicts = []) ∧
    (isSafeToCreateProjectIn [⟨".git", true⟩, ⟨"README.md", false⟩]).safe = true ∧
    (isSafeToCreateProjectIn [⟨"notes.txt", false⟩]).safe = false ∧
    (isSafeToCreateProjectIn [⟨"notes.txt", false⟩]).conflicts = [⟨"notes.txt", false⟩] := by
  refine ⟨?_, by decide, by decide, by decide⟩
  intro entries h
  have hc : conflictsOf entries = [] := by
    rw [List.eq_nil_iff_forall_not_mem]
    intro e he
    rcases mem_conflictsOf.mp he with ⟨hmem, hval, -⟩
    exact hval (h e hmem)
  rw [scan_eq_of_no_conflicts hc]
  exact ⟨rfl, rfl⟩

/-- C3 witness: a directory holding only the allow-listed `.git` scans
clean. -/
theorem C3_allowlisted_entries_scan_clean_witness :
    (isSafeToCreateProjectIn [⟨".git", true⟩]).safe = true ∧
    (isSafeToCreateProjectIn [⟨".git", true⟩]).conflicts = [] :=
  C3_allowlisted_entries_scan_clean.1 [⟨".git", true⟩] (by decide)

/-- C4 counterexample: the directory holding the stale log `npm-debug.log`
next to the conflicting `notes.txt` keeps the stale log — the scan deletes
nothing because the conflict check comes first and returns early. -/
theorem C4_counterexample_stale_log_kept_on_conflict :
    isErrorLog "npm-debug.log" = true ∧
    (⟨"npm-debug.log", false⟩ : Entry) ∈
      ([⟨"npm-debug.log", false⟩, ⟨"notes.txt", false⟩] : List Entry) ∧
    (isSafeToCreateProjectIn [⟨"npm-debug.log", false⟩, ⟨"notes.txt", false⟩]).deleted = [] ∧
    (isSafeToCreateProjectIn [⟨"npm-debug.log", false⟩, ⟨"notes.txt", false⟩]).safe = false := by
  decide

/-- C4 (amended): a stale-log entry never appears in the conflict report, and
whenever the scan reports zero conflicts it deletes every stale-log entry. -/
theorem C4_stale_logs_deleted_on_clean_scan (entries : List Entry) (e : Entry)
    (hmem : e ∈ entries) (hlog : isErrorLog e.name = true) :
    e ∉ (isSafeToCreateProjectIn entries).conflicts ∧
    ((isSafeToCreateProjectIn entries).safe = true →
      e ∈ (isSafeToCreateProjectIn entries).deleted) := by
  constructor
  · rw [scan_conflicts_eq]
    intro hc
    have := (mem_conflictsOf.mp hc).2.2.2
    rw [hlog] at this
    exact absurd this (by decide)
  · intro hsafe
    have hc := (safe_iff_conflictsOf_nil entries).mp hsafe
    rw [scan_eq_of_no_conflicts hc]
    simpa [List.mem_filter, hlog] using hmem

/-- C4 witness: in a directory holding only `npm-debug.log` the clean scan
deletes that stale log. -/
theorem C4_stale_logs_deleted_on_clean_scan_witness :
    (⟨"npm-debug.log", false⟩ : Entry) ∈
      (isSafeToCreateProjectIn [⟨"npm-debug.log", false⟩]).deleted :=
  (C4_stale_logs_deleted_on_clean_scan [⟨"npm-debug.log", false⟩] ⟨"npm-debug.log", false⟩
    (by decide) (by decide)).2 (by decide)

/-- C8: when a scan of a directory reports zero conflicts, a second scan of
the directory contents it leaves behind again reports the same empty conflict
list and again returns true. -/
theorem C8_scan_idempotent_on_clean_dir (entries : List Entry)
    (h1 : (isSafeToCreateProjectIn entries).safe = true) :
    (isSafeToCreateProjectIn entries).conflicts = [] ∧
    (isSafeToCreateProjectIn ((isSafeToCreateProjectIn entries).entriesAfter)).safe = true ∧
    (isSafeToCreateProjectIn ((isSafeToCreateProjectIn entries).entriesAfter)).conflicts =
      (isSafeToCreateProjectIn entries).conflicts := by
  have hc := (safe_iff_conflictsOf_nil entries).mp h1
  rw [scan_eq_of_no_conflicts hc]
  have hc2 : conflictsOf (entries.filter (fun e => !(isErrorLog e.name))) = [] := by
    rw [List.eq_nil_iff_forall_not_mem]
    intro e he
    rcases mem_conflictsOf.mp he with ⟨hmem, hval, himl, hlog⟩
    have : e ∈ conflictsOf entries :=
      mem_conflictsOf.mpr ⟨(List.mem_filter.mp hmem).1, hval, himl, hlog⟩
    rw [hc] at this
    exact List.not_mem_nil e this
  rw [scan_eq_of_no_conflicts hc2]
  exact ⟨rfl, rfl, rfl⟩

/-- C8 witness: a directory holding `.git` and a stale log scans clean, and
the rescan of what the first scan leaves behind is clean again. -/
theorem C8_scan_idempotent_on_clean_dir_witness :
    (isSafeToCreateProjectIn [⟨".git", true⟩, ⟨"npm-debug.log", false⟩]).conflicts = [] ∧
    (isSafeToCreateProjectIn
      ((isSafeToCreateProjectIn [⟨".git", true⟩, ⟨"npm-debug.log", false⟩]).entriesAfter)).safe
        = true :=
  ⟨(C8_scan_idempotent_on_clean_dir [⟨".git", true⟩, ⟨"npm-debug.log", false⟩] (by decide)).1,
   (C8_scan_idempotent_on_clean_dir [⟨".git", true⟩, ⟨"npm-debug.log", false⟩] (by decide)).2.1⟩

/-- C9: a scan that reports at least one conflict (returns false) deletes
nothing and leaves the directory contents unchanged; stale-log deletion
happens only on the zero-conflict path. -/
theorem C9_conflicting_scan_mutates_nothing (entries : List Entry)
    (h : (isSafeToCreateProjectIn entries).safe = false) :
    (isSafeToCreateProjectIn entries).deleted = [] ∧
    (isSafeToCreateProjectIn entries).entriesAfter = entries := by
  by_cases hc : conflictsOf entries = []
  · rw [scan_eq_of_no_conflicts hc] at h
    exact absurd h (by simp)
  · rw [scan_eq_of_conflicts hc]
    exact ⟨rfl, rfl⟩

/-- C9 witness: the failing scan of a directory holding `npm-debug.log` and
`notes.txt` deletes nothing, not even the stale log. -/
theorem C9_conflicting_scan_mutates_nothing_witness :
    (isSafeToCreateProjectIn [⟨"npm-debug.log", false⟩, ⟨"notes.txt", false⟩]).deleted = [] ∧
    (isSafeToCreateProjectIn [⟨"npm-debug.log", false⟩, ⟨"notes.txt", false⟩]).entriesAfter =
      [⟨"npm-debug.log", false⟩, ⟨"notes.txt", false⟩] :=
  C9_conflicting_scan_mutates_nothing [⟨"npm-debug.log", false⟩, ⟨"notes.txt", false⟩] (by decide)

/-- C10: the scanner exemptions are pattern-based — an entry ending in `.iml`
is never a conflict, an entry merely starting with a stale-log prefix (such
as `npm-debug.log.1`) is a stale log and never a conflict — while allow-list
matching is exact and case-sensitive (`README.md` passes, `readme.md` and the
extension `LICENSE.txt` conflict). -/
theorem C10_pattern_based_exemptions :
    (∀ (entries : List Entry) (e : Entry), jsEndsWith e.name ".iml" = true →
      e ∉ (isSafeToCreateProjectIn entries).conflicts) ∧
    (∀ (entries : List Entry) (e : Entry), isErrorLog e.name = true →
      e ∉ (isSafeToCreateProjectIn entries).conflicts) ∧
    isErrorLog "npm-debug.log.1" = true ∧
    (isSafeToCreateProjectIn [⟨"npm-debug.log.1", false⟩]).safe = true ∧
    (isSafeToCreateProjectIn [⟨"npm-debug.log.1", false⟩]).deleted =
      [⟨"npm-debug.log.1", false⟩] ∧
    (isSafeToCreateProjectIn [⟨"README.md", false⟩]).safe = true ∧
    (isSafeToCreateProjectIn [⟨"readme.md", false⟩]).safe = false ∧
    (isSafeToCreateProjectIn [⟨"LICENSE.txt", false⟩]).safe = false := by
  refine ⟨?_, ?_, by decide, by decide, by decide, by decide, by decide, by decide⟩
  · intro entries e himl hc
    rw [scan_conflicts_eq] at hc
    have := (mem_conflictsOf.mp hc).2.2.1
    rw [himl] at this
    exact absurd this (by decide)
  · intro entries e hlog hc
    rw [scan_conflicts_eq] at hc
    have := (mem_conflictsOf.mp hc).2.2.2
    rw [hlog] at this
    exact absurd this (by decide)

/-- C10 witness: a module file `mod.iml` and the numbered stale log
`npm-debug.log.1` are not conflicts even next to a genuine conflict. -/
theorem C10_pattern_based_exemptions_witness :
    (⟨"mod.iml", false⟩ : Entry) ∉
      (isSafeToCreateProjectIn [⟨"mod.iml", false⟩, ⟨"notes.txt", false⟩]).conflicts ∧
    (⟨"npm-debug.log.1", false⟩ : Entry) ∉
      (isSafeToCreateProjectIn [⟨"npm-debug.log.1", false⟩, ⟨"notes.txt", false⟩]).conflicts :=
  ⟨C10_pattern_based_exemptions.1 [⟨"mod.iml", false⟩, ⟨"notes.txt", false⟩]
      ⟨"mod.iml", false⟩ (by decide),
   C10_pattern_based_exemptions.2.1 [⟨"npm-debug.log.1", false⟩, ⟨"notes.txt", false⟩]
      ⟨"npm-debug.log.1", false⟩ (by decide)⟩

/-- C1 counterexample: for the invocation `create-app /tmp/app` made from the
original working directory `/home/user`, the rollback that empties and
deletes the target changes the working directory to `/tmp`, not back to the
original `/home/user`. -/
theorem C1_counterexample_cwd_not_restored :
    resolvePath ["home", "user"] (PathArg.abs ["tmp", "app"]) = ["tmp", "app"] ∧
    (rollbackOnFailure ["tmp", "app"] [⟨"package.json", false⟩]).dirDeleted = true ∧
    (rollbackOnFailure ["tmp", "app"] [⟨"package.json", false⟩]).cwdAfter ≠
      ["home", "user"] := by
  decide

theorem rollbackOnFailure_of_empty {root : List String} {entries : List Entry}
    (h : entries.filter (fun e => !(knownGeneratedFiles.contains e.name)) = []) :
    rollbackOnFailure root entries =
      { deleted := entries.filter (fun e => knownGeneratedFiles.contains e.name)
        entriesAfter := []
        dirDeleted := true
        cwdAfter := root.dropLast
        exitCode := 1 } := by
  simp only [rollbackOnFailure, h, List.isEmpty_nil, if_true]

theorem rollbackOnFailure_of_nonempty {root : List String} {entries : List Entry}
    (h : entries.filter (fun e => !(knownGeneratedFiles.contains e.name)) ≠ []) :
    rollbackOnFailure root entries =
      { deleted := entries.filter (fun e => knownGeneratedFiles.contains e.name)
        entriesAfter := entries.filter (fun e => !(knownGeneratedFiles.contains e.name))
        dirDeleted := false
        cwdAfter := root
        exitCode := 1 } := by
  simp only [rollbackOnFailure]
  rw [if_neg (by simpa [List.isEmpty_iff] using h)]

/-- C1 (amended): the rollback deletes exactly the entries whose names are on
the generated-file allow-list (`package.json`, `node_modules`) and no other
entry; if the target directory is empty after that deletion, the target
directory itself is deleted and the working directory is changed to the
parent of the target directory (the original working directory only when the
target is its direct child); the handler then exits with status 1. -/
theorem C1_rollback_deletes_generated_files (root : List String) (entries : List Entry) :
    (∀ e : Entry, e ∈ (rollbackOnFailure root entries).deleted ↔
      e ∈ entries ∧ e.name ∈ knownGeneratedFiles) ∧
    (∀ e : Entry, e ∈ (rollbackOnFailure root entries).entriesAfter ↔
      e ∈ entries ∧ e.name ∉ knownGeneratedFiles) ∧
    ((rollbackOnFailure root entries).entriesAfter = [] →
      (rollbackOnFailure root entries).dirDeleted = true ∧
      (rollbackOnFailure root entries).cwdAfter = root.dropLast) ∧
    ((rollbackOnFailure root entries).entriesAfter ≠ [] →
      (rollbackOnFailure root entries).dirDeleted = false ∧
      (rollbackOnFailure root entries).cwdAfter = root) ∧
    (rollbackOnFailure root entries).exitCode = 1 := by
  by_cases hr : entries.filter (fun e => !(knownGeneratedFiles.contains e.name)) = []
  · rw [rollbackOnFailure_of_empty hr]
    refine ⟨?_, ?_, fun _ => ⟨rfl, rfl⟩, fun h => absurd rfl h, rfl⟩
    · intro e
      simp [List.mem_filter]
    · intro e
      simp only [List.not_mem_nil, false_iff]
      rintro ⟨he, hnot⟩
      have hmem : e ∈ entries.filter (fun e => !(knownGeneratedFiles.contains e.name)) :=
        List.mem_filter.mpr ⟨he, by simpa using hnot⟩
      rw [hr] at hmem
      exact List.not_mem_nil e hmem
  · rw [rollbackOnFailure_of_nonempty hr]
    refine ⟨?_, ?_, fun h => absurd h hr, fun _ => ⟨rfl, rfl⟩, rfl⟩
    · intro e
      simp [List.mem_filter]
    · intro e
      simp [List.mem_filter]

/-- C1 witness: rolling back `/tmp/app` that holds only the generated
`package.json` deletes the file, deletes the directory, moves the working
directory to `/tmp`, and exits 1. -/
theorem C1_rollback_deletes_generated_files_witness :
    (rollbackOnFailure ["tmp", "app"] [⟨"package.json", false⟩]).dirDeleted = true ∧
    (rollbackOnFailure ["tmp", "app"] [⟨"package.json", false⟩]).cwdAfter = ["tmp"] ∧
    (rollbackOnFailure ["tmp", "app"] [⟨"package.json", false⟩]).exitCode = 1 := by
  have h := C1_rollback_deletes_generated_files ["tmp", "app"] [⟨"package.json", false⟩]
  have h4 := h.2.2.1 (by decide)
  refine ⟨h4.1, ?_, h.2.2.2.2⟩
  rw [h4.2]
  decide

/-- C5: the result of `run` is independent of the exit code the package
manager would return — `Promise.all` is applied to a function instead of an
iterable, so it rejects with a `TypeError` whatever the callback would do,
the install step is never invoked, and `run` always performs the rollback and
exits 1. -/
theorem C5_run_never_invokes_install (root : List String) (entries : List Entry)
    (c₁ c₂ : Nat) :
    run root entries c₁ = run root entries c₂ ∧
    (∀ f g : Unit → PromiseResult Unit, promiseAllOfFunction f = promiseAllOfFunction g) ∧
    (run root entries c₁).reason = some Reason.typeError ∧
    (run root entries c₁).rolledBack = some (rollbackOnFailure root entries) ∧
    (run root entries c₁).exited = some 1 :=
  ⟨rfl, fun _ _ => rfl, rfl, rfl, rfl⟩

/-- C5 witness: even with a succeeding package manager (exit code 0), `run`
on an empty `/tmp/app` behaves exactly as with a failing one and exits 1. -/
theorem C5_run_never_invokes_install_witness :
    run ["tmp", "app"] [] 0 = run ["tmp", "app"] [] 1 ∧
    (run ["tmp", "app"] [] 0).exited = some 1 :=
  ⟨(C5_run_never_invokes_install ["tmp", "app"] [] 0 1).1,
   (C5_run_never_invokes_install ["tmp", "app"] [] 0 1).2.2.2.2⟩

/-- C6: `install` spawns `npm` with exactly the flags
`install --no-audit --save --save-exact --loglevel error` followed by the
dependency names in order, inheriting the standard streams, and a nonzero
child exit code rejects with the reconstructed command line (command name
followed by all arguments); exit code 0 resolves. -/
theorem C6_install_spawn_args (deps : List String) (exitCode : Nat) :
    installSpawn deps =
      { command := "npm"
        args := ["install", "--no-audit", "--save", "--save-exact", "--loglevel", "error"]
          ++ deps
        stdio := "inherit" } ∧
    (exitCode ≠ 0 →
      install deps exitCode =
        PromiseResult.rejected (Reason.commandFailed
          ("npm " ++ String.intercalate " "
            (["install", "--no-audit", "--save", "--save-exact", "--loglevel", "error"]
              ++ deps)))) ∧
    install deps 0 = PromiseResult.resolved () := by
  refine ⟨rfl, fun h => ?_, rfl⟩
  simp [install, h, installArgs]

/-- C6 witness: for the fixed dependency list and a failing child, the
rejection carries the full reconstructed command line. -/
theorem C6_install_spawn_args_witness :
    install ["express", "node-fetch"] 1 =
      PromiseResult.rejected (Reason.commandFailed
        "npm install --no-audit --save --save-exact --loglevel error express node-fetch") := by
  have h := (C6_install_spawn_args ["express", "node-fetch"] 1).2.1 (by decide)
  rw [h]
  decide

/-- C7: naming the project after the reserved dependency `express` makes
`checkAppName` reject it with the reserved-name outcome listing the forbidden
names, and the invocation produces only that report and the exit with status
1 — in particular no directory is ever created; on an invalid name every
violation message (errors then warnings) is reported before the single fatal
exit. -/
theorem C7_reserved_name_fatal :
    (∀ (cwd : List String) (entries : Option (List Entry)) (npmOk : Bool),
      createApp ⟨PathArg.rel ["express"], cwd, ValidationResult.ok, entries, npmOk⟩ =
        [Event.reservedNameReported ["express", "node-fetch"], Event.exited 1] ∧
      Event.dirEnsured ∉
        createApp ⟨PathArg.rel ["express"], cwd, ValidationResult.ok, entries, npmOk⟩) ∧
    checkAppName "express" ValidationResult.ok =
      CheckNameOutcome.rejectedReservedName ["express", "node-fetch"] ∧
    (∀ (inp : Inputs) (errors warnings : List String),
      inp.validation = ValidationResult.invalid errors warnings →
      createApp inp =
        ((errors ++ warnings).map Event.violationReported) ++ [Event.exited 1]) := by
  have hch : checkAppName "express" ValidationResult.ok =
      CheckNameOutcome.rejectedReservedName ["express", "node-fetch"] := by decide
  refine ⟨?_, hch, ?_⟩
  · intro cwd entries npmOk
    have hname : basenameOf (resolvePath cwd (PathArg.rel ["express"])) = "express" := by
      simp [basenameOf, resolvePath, List.getLast?_concat]
    have htrace :
        createApp ⟨PathArg.rel ["express"], cwd, ValidationResult.ok, entries, npmOk⟩ =
          [Event.reservedNameReported ["express", "node-fetch"], Event.exited 1] := by
      simp only [createApp, hname, hch]
    exact ⟨htrace, by rw [htrace]; decide⟩
  · intro inp errors warnings hv
    simp [createApp, hv, checkAppName]

/-- C7 witness: the invocation `create-app express` from the filesystem root
with no preexisting directory reports the reserved names and exits 1 without
ensuring a directory. -/
theorem C7_reserved_name_fatal_witness :
    createApp ⟨PathArg.rel ["express"], [], ValidationResult.ok, none, true⟩ =
      [Event.reservedNameReported ["express", "node-fetch"], Event.exited 1] ∧
    Event.dirEnsured ∉
      createApp ⟨PathArg.rel ["express"], [], ValidationResult.ok, none, true⟩ :=
  C7_reserved_name_fatal.1 [] none true

theorem createApp_trace_shapes (inp : Inputs) :
    (∃ v : List String,
      createApp inp = (v.map Event.violationReported) ++ [Event.exited 1]) ∨
    (∃ f, createApp inp = [Event.reservedNameReported f, Event.exited 1]) ∨
    (∃ c, createApp inp = [Event.dirEnsured, Event.conflictsReported c, Event.exited 1]) ∨
    (∃ m r, createApp inp = [Event.dirEnsured, Event.manifestWritten m, Event.chdir r,
      Event.cwdErrorReported, Event.exited 1]) ∨
    (∃ m r, createApp inp = [Event.dirEnsured, Event.manifestWritten m, Event.chdir r,
      Event.crashedUndefinedVersion]) := by
  rcases hcheck : checkAppName (basenameOf (resolvePath inp.cwd inp.name)) inp.validation
    with _ | v | f
  · rcases hsafe : (isSafeToCreateProjectIn (inp.existingEntries.getD [])).safe
    · right; right; left
      exact ⟨(isSafeToCreateProjectIn (inp.existingEntries.getD [])).conflicts,
        by simp [createApp, hcheck, hsafe]⟩
    · rcases hnpm : inp.npmCwdOk
      · right; right; right; left
        refine ⟨⟨basenameOf (resolvePath inp.cwd inp.name), "0.1.0", true⟩,
          resolvePath inp.cwd inp.name, ?_⟩
        simp [createApp, hcheck, hsafe, hnpm]
      · right; right; right; right
        refine ⟨⟨basenameOf (resolvePath inp.cwd inp.name), "0.1.0", true⟩,
          resolvePath inp.cwd inp.name, ?_⟩
        simp [createApp, hcheck, hsafe, hnpm]
  · left
    exact ⟨v, by simp [createApp, hcheck]⟩
  · right; left
    exact ⟨f, by simp [createApp, hcheck]⟩

/-- C2: the manifest is only ever written after the safety scan has returned
true with an empty conflict list and after the name check has passed; the
directory is only ensured after the name check has passed; and every exit
event and the terminal crash event end the event trace — no failure is ever
resumed. -/
theorem C2_writes_only_after_clean_scan :
    (∀ (inp : Inputs) (m : Manifest),
      Event.manifestWritten m ∈ createApp inp →
        (isSafeToCreateProjectIn (inp.existingEntries.getD [])).safe = true ∧
        (isSafeToCreateProjectIn (inp.existingEntries.getD [])).conflicts = [] ∧
        checkAppName (basenameOf (resolvePath inp.cwd inp.name)) inp.validation =
          CheckNameOutcome.ok) ∧
    (∀ inp : Inputs, Event.dirEnsured ∈ createApp inp →
      checkAppName (basenameOf (resolvePath inp.cwd inp.name)) inp.validation =
        CheckNameOutcome.ok) ∧
    (∀ (inp : Inputs) (code : Nat), Event.exited code ∈ createApp inp →
      (createApp inp).getLast? = some (Event.exited code)) ∧
    (∀ inp : Inputs, Event.crashedUndefinedVersion ∈ createApp inp →
      (createApp inp).getLast? = some Event.crashedUndefinedVersion) := by
  refine ⟨?_, ?_, ?_, ?_⟩
  · intro inp m hm
    rcases hcheck : checkAppName (basenameOf (resolvePath inp.cwd inp.name)) inp.validation
      with _ | v | f
    · rcases hsafe : (isSafeToCreateProjectIn (inp.existingEntries.getD [])).safe
      · simp [createApp, hcheck, hsafe] at hm
      · refine ⟨rfl, ?_, rfl⟩
        rw [scan_conflicts_eq]
        exact (safe_iff_conflictsOf_nil _).mp hsafe
    · simp [createApp, hcheck] at hm
    · simp [createApp, hcheck] at hm
  · intro inp hd
    rcases hcheck : checkAppName (basenameOf (resolvePath inp.cwd inp.name)) inp.validation
      with _ | v | f
    · rfl
    · simp [createApp, hcheck] at hd
    · simp [createApp, hcheck] at hd
  · intro inp code hm
    rcases createApp_trace_shapes inp with ⟨v, h⟩ | ⟨f, h⟩ | ⟨c, h⟩ | ⟨m, r, h⟩ | ⟨m, r, h⟩ <;>
        rw [h] at hm ⊢ <;> simp at hm <;>
      simp [hm, List.getLast?_concat]
  · intro inp hm
    rcases createApp_trace_shapes inp with ⟨v, h⟩ | ⟨f, h⟩ | ⟨c, h⟩ | ⟨m, r, h⟩ | ⟨m, r, h⟩ <;>
        rw [h] at hm ⊢ <;> simp at hm <;>
      simp [List.getLast?_concat]

/-- C2 witness: the invocation `create-app myapp` over a fresh directory
reaches the manifest write, so the scan was clean and the name check had
passed. -/
theorem C2_writes_only_after_clean_scan_witness :
    (isSafeToCreateProjectIn ([] : List Entry)).safe = true ∧
    (isSafeToCreateProjectIn ([] : List Entry)).conflicts = [] ∧
    checkAppName "myapp" ValidationResult.ok = CheckNameOutcome.ok :=
  C2_writes_only_after_clean_scan.1
    ⟨PathArg.rel ["myapp"], [], ValidationResult.ok, none, true⟩
    ⟨"myapp", "0.1.0", true⟩ (by decide)

end Cli
